import Mathlib

/-!
Verification of the multi-agent reasoning orchestrator (`reasoning.py`,
`swarm_middle_agent.py`) against its natural-language specification.

The Python source is shallowly embedded: each relevant function is translated
into an executable Lean definition over explicit state (lists of messages,
session records, oracle functions standing for the remote completion service
and for wall-clock durations).  Token counts are natural numbers produced by
an arbitrary counting function `enc : String → Nat`, standing for
`len(tiktoken.get_encoding("cl100k_base").encode(text))`.
-/

namespace MultiAgent

/-- Constants from the top of `reasoning.py`. -/
def MAX_TOTAL_TOKENS : Nat := 4096

def MAX_REFINEMENT_ATTEMPTS : Nat := 3

def MAX_CHAT_HISTORY_TOKENS : Nat := 4096

def RETRY_LIMIT : Nat := 3

def RETRY_BACKOFF_FACTOR : Nat := 2

/-- A chat message, as the dicts `{"role": role, "content": content}`
appended by `Agent._add_message`. -/
structure Msg where
  role : String
  content : String
deriving DecidableEq

/-- `sum(len(encoding.encode(msg['content'])) for msg in msgs)`:
the total token cost of a message list under the counting function `enc`. -/
def totalTokens (enc : String → Nat) (msgs : List Msg) : Nat :=
  (msgs.map (fun m => enc m.content)).sum

/-- The eviction loop of `Agent._add_message`
(`while total_tokens > BUDGET and len(msgs) > 1: msgs.pop(0); recompute`),
written as structural recursion: with fewer than two messages the condition
`len > 1` is false and the list is returned unchanged; otherwise, if the
total exceeds the budget the oldest message is dropped and the loop repeats. -/
def evict (enc : String → Nat) (budget : Nat) : List Msg → List Msg
  | [] => []
  | [m] => [m]
  | m :: m2 :: rest =>
    if budget < totalTokens enc (m :: m2 :: rest) then
      evict enc budget (m2 :: rest)
    else
      m :: m2 :: rest

/-- `Agent._add_message(role, content)` restricted to one of the two logs:
append the new message, then run the eviction loop against `budget`. -/
def addMessage (enc : String → Nat) (budget : Nat) (msgs : List Msg)
    (role content : String) : List Msg :=
  evict enc budget (msgs ++ [⟨role, content⟩])

/-- `_add_message` in `mode='reasoning'` (the `self.messages` branch,
budget `MAX_TOTAL_TOKENS`). -/
def addReasoningMessage (enc : String → Nat) (msgs : List Msg)
    (role content : String) : List Msg :=
  addMessage enc MAX_TOTAL_TOKENS msgs role content

/-- `_add_message` in `mode='chat'` (the `self.chat_history` branch,
budget `MAX_CHAT_HISTORY_TOKENS`). -/
def addChatMessage (enc : String → Nat) (msgs : List Msg)
    (role content : String) : List Msg :=
  addMessage enc MAX_CHAT_HISTORY_TOKENS msgs role content

/-!
## The completion call: `Agent._handle_reasoning_logic`

The remote service is an oracle `attempt : Nat → AttemptRes` giving the
outcome of each try of `client.chat.completions.create` (plus reply
extraction): either a reply with its wall-clock duration, or a raised
exception.  `tiktoken.get_encoding` availability is the flag
`encAvailable`; `elapsed` stands for `time.time() - start_time` at loop
exit.  The whole body runs in `Except String` so that an exception escaping
the function would show up as `.error`; the `except Exception` clause of
the retry loop catches every error raised inside the `try` block.
`Agent._handle_chat_interaction` is line-for-line the same loop (only the
model name and the log field differ), so this embedding covers both.
-/

/-- Outcome of one attempt of the remote completion call. -/
inductive AttemptRes where
  | ok (reply : String) (dur : Nat)
  | fail
deriving DecidableEq

/-- What `_handle_reasoning_logic` produces: the returned reply and
duration, the agent's conversation log afterwards, the list of backoff
sleeps performed, and the number of attempts made. -/
structure ReasonResult where
  reply : String
  dur : Nat
  log : List Msg
  sleeps : List Nat
  attempts : Nat
deriving DecidableEq

/-- The sentinel returned after the retry limit is exhausted. -/
def SENTINEL_REPLY : String := "An error occurred while generating a response."

/-- `_add_message` including its `tiktoken.get_encoding` fetch: when the
counting mechanism is unavailable the error is logged and re-raised
(`raise e`) before anything is appended. -/
def addMessageE (encAvailable : Bool) (enc : String → Nat) (budget : Nat)
    (msgs : List Msg) (role content : String) : Except String (List Msg) :=
  if encAvailable then Except.ok (addMessage enc budget msgs role content)
  else Except.error "Error getting encoding"

/-- The `try` block of one retry-loop iteration: the remote call (raising on
`.fail`), then `self._add_message("assistant", assistant_reply)`. -/
def attemptBody (encAvailable : Bool) (enc : String → Nat) (budget : Nat)
    (msgs : List Msg) (att : AttemptRes) : Except String (String × Nat × List Msg) :=
  match att with
  | .fail => Except.error "completion request failed"
  | .ok reply dur =>
    match addMessageE encAvailable enc budget msgs "assistant" reply with
    | .error e => Except.error e
    | .ok msgs2 => Except.ok (reply, dur, msgs2)

/-- `backoff * (RETRY_BACKOFF_FACTOR ** (retries - 1))` with `backoff = 1`
(the local variable is initialized to 1 and never reassigned). -/
def backoffDelay (retries : Nat) : Nat :=
  1 * RETRY_BACKOFF_FACTOR ^ (retries - 1)

/-- The retry loop `while retries < RETRY_LIMIT`, written with the loop
counter `retries` plus the structurally decreasing remaining-iteration
count `fuel = RETRY_LIMIT - retries` (the top-level call passes
`retries = 0`, `fuel = RETRY_LIMIT`, and every recursive call preserves the
equation, so the `fuel = 0` base case is exactly the loop condition turning
false).  On success the loop returns the reply; on an exception it
increments `retries`, breaks out once `retries >= RETRY_LIMIT` (falling
through to the sentinel return), and otherwise sleeps `backoffDelay
retries` before the next attempt. -/
def reasoningLoopE (attempt : Nat → AttemptRes) (encAvailable : Bool)
    (enc : String → Nat) (budget elapsed : Nat) (msgs : List Msg) :
    Nat → Nat → Except String ReasonResult
  | _retries, 0 => Except.ok ⟨SENTINEL_REPLY, elapsed, msgs, [], 0⟩
  | retries, fuel + 1 =>
    match attemptBody encAvailable enc budget msgs (attempt retries) with
    | .ok (reply, dur, msgs2) => Except.ok ⟨reply, dur, msgs2, [], 1⟩
    | .error _ =>
      if RETRY_LIMIT ≤ retries + 1 then
        Except.ok ⟨SENTINEL_REPLY, elapsed, msgs, [], 1⟩
      else
        match reasoningLoopE attempt encAvailable enc budget elapsed msgs
            (retries + 1) fuel with
        | .ok r =>
          Except.ok ⟨r.reply, r.dur, r.log, backoffDelay (retries + 1) :: r.sleeps,
            r.attempts + 1⟩
        | .error e => Except.error e

/-- `Agent._handle_reasoning_logic(prompt)`: run the retry loop from
`retries = 0`. -/
def handleReasoningLogic (attempt : Nat → AttemptRes) (encAvailable : Bool)
    (enc : String → Nat) (budget elapsed : Nat) (msgs : List Msg) :
    Except String ReasonResult :=
  reasoningLoopE attempt encAvailable enc budget elapsed msgs 0 RETRY_LIMIT

/-- The request actually sent to the service (lines 393-395): the shared
system message plus instructions as a user message, then the stored log,
then the prompt as a user message.  The prompt is part of the request only;
it is never stored in the log. -/
def requestMessages (systemMessage : String) (msgs : List Msg) (prompt : String) :
    List Msg :=
  Msg.mk "user" systemMessage :: msgs ++ [Msg.mk "user" prompt]

/-!
## `Agent.refine`

A single agent's completion step is abstracted as
`step : String → String × Nat` (prompt to reply and duration), standing for
`self._handle_reasoning_logic(prompt)`.
-/

/-- The first refinement prompt template (line 562). -/
def refineBasePrompt (data : String) : String :=
  "Please refine the following response to improve its accuracy and completeness:\n\n" ++ data

/-- The extra directive appended when `more_time` is set (line 564). -/
def moreTimeDirective : String :=
  "\nTake additional time to improve the response thoroughly."

/-- The prompt of the first round: the base template, with the
additional-time directive appended exactly when `more_time` is set. -/
def initialRefinePrompt (data : String) (more_time : Bool) : String :=
  if more_time then refineBasePrompt data ++ moreTimeDirective
  else refineBasePrompt data

/-- The prompt of every later round (line 572), built from the previous
round's reply; it never mentions `more_time`. -/
def furtherRefinePrompt (resp : String) : String :=
  "Please further refine the following response:\n\n" ++ resp

/-- The `for _ in range(iterations)` loop of `Agent.refine`: state is the
current prompt, the current `refined_response` and the running
`total_duration`. -/
def refineLoop (step : String → String × Nat) :
    Nat → String → String → Nat → String × Nat
  | 0, _, refined, total => (refined, total)
  | n + 1, prompt, _, total =>
    let r := step prompt
    refineLoop step n (furtherRefinePrompt r.1) r.1 (total + r.2)

/-- `Agent.refine(data, more_time, iterations)`: `refined_response` starts
as `data`, `total_duration` as 0. -/
def refineAction (step : String → String × Nat) (data : String)
    (more_time : Bool) (iterations : Nat) : String × Nat :=
  refineLoop step iterations (initialRefinePrompt data more_time) data 0

/-- Modelled from the spec's words, for comparison with `refineAction`:
round 0 answers the initial prompt, and round `i + 1` answers the
further-refinement prompt built from round `i`'s reply — a strict chain of
dependent rounds in which `more_time` can only influence round 0. -/
def refineRound (step : String → String × Nat) (data : String)
    (more_time : Bool) : Nat → String × Nat
  | 0 => step (initialRefinePrompt data more_time)
  | i + 1 => step (furtherRefinePrompt (refineRound step data more_time i).1)

/-- Modelled from the spec's words: the sum of the durations of rounds
`0 .. k-1`. -/
def refineDurSum (step : String → String × Nat) (data : String)
    (more_time : Bool) : Nat → Nat
  | 0 => 0
  | n + 1 => refineDurSum step data more_time n + (refineRound step data more_time n).2

/-- Durations of rounds `i+1 .. i+n` (helper for relating the loop
accumulator to `refineDurSum`). -/
def refineDurFrom (step : String → String × Nat) (data : String)
    (more_time : Bool) (i : Nat) : Nat → Nat
  | 0 => 0
  | n + 1 =>
    (refineRound step data more_time (i + 1)).2 +
      refineDurFrom step data more_time (i + 1) n

/-!
## The critique stage of `reasoning_logic` (and `run_swarm_reasoning`)

`for i, agent in enumerate(agents): other_agent = agents[(i + 1) %
num_agents]; critiques[agent.name] = agent.critique(verified[other])`.
Agents are their names; `verified` maps a name to its verified output and
`crit` maps (critic name, critiqued text) to the critique.  The same ring
appears verbatim in `run_swarm_reasoning` (swarm_middle_agent.py, lines
267-280). -/
def critiqueStage (agents : List String) (verified : String → String)
    (crit : String → String → String) : List (String × String) :=
  (List.range agents.length).map (fun i =>
    (agents.getD i "",
      crit (agents.getD i "") (verified (agents.getD ((i + 1) % agents.length) ""))))

/-!
## The feedback loop of `reasoning_logic` (lines 998-1060)

User input arrives through `input().strip().lower()` and is compared
against the literals `'menu'`, `'exit'`, `'yes'`, `'no'`; the inductive
`Fb` is that five-way classification of each read line.  One re-refinement
of all agents followed by re-blending is abstracted as
`stepRound : Bool → String → String` taking the current `more_time` flag
and the current blended text to the new blended text.
-/

/-- One lowered, stripped line of user input. -/
inductive Fb where
  | yes
  | no
  | menu
  | quit
  | other
deriving DecidableEq

/-- How the feedback loop ended. -/
inductive FbOutcome where
  | accepted
  | maxAttempts
  | toMenu
  | exited
  | pending
deriving DecidableEq

/-- The feedback loop: `refine_count` starts at 0 and the loop runs while
`refine_count < MAX_REFINEMENT_ATTEMPTS`.  `'menu'`/`'exit'` leave
immediately, `'yes'` breaks out accepted, any other non-`'no'` answer
re-prompts without counting, and `'no'` increments the counter, solicits
the more-time flag once the counter has reached 2 (consuming the next
input line; `more_time = (answer == 'yes')`), then re-refines and re-blends
(`stepRound`).  When the loop condition fails the `while`'s `else` branch
reports that the maximum attempts were reached, keeping the current
blended text.  `pending` marks an exhausted finite input script (the
program would block on `input()`). -/
def feedbackLoop (stepRound : Bool → String → String) :
    Nat → Bool → String → List Fb → FbOutcome × String
  | count, _, blended, [] =>
    if MAX_REFINEMENT_ATTEMPTS ≤ count then (FbOutcome.maxAttempts, blended)
    else (FbOutcome.pending, blended)
  | count, mt, blended, fb :: rest =>
    if MAX_REFINEMENT_ATTEMPTS ≤ count then (FbOutcome.maxAttempts, blended)
    else
      match fb with
      | Fb.menu => (FbOutcome.toMenu, blended)
      | Fb.quit => (FbOutcome.exited, blended)
      | Fb.yes => (FbOutcome.accepted, blended)
      | Fb.other => feedbackLoop stepRound count mt blended rest
      | Fb.no =>
        if 2 ≤ count + 1 then
          match rest with
          | [] => (FbOutcome.pending, blended)
          | ans :: rest2 =>
            feedbackLoop stepRound (count + 1) (decide (ans = Fb.yes))
              (stepRound (decide (ans = Fb.yes)) blended) rest2
        else
          feedbackLoop stepRound (count + 1) mt (stepRound mt blended) rest

/-!
## The history store

`append_session_record` / `save_reasoning_session` append one record to the
JSON-backed list; `get_local_context_for_prompt` extracts keywords with
`re.findall(r"\w+", prompt)` and `load_reasoning_history_for_context` scans
the reversed list with a naive case-insensitive substring match.  The
persisted JSON list is modelled as an in-memory `List SessionRec`; Python's
Unicode-aware `\w` and `str.lower` are rendered with ASCII
`Char.isAlphanum`/`Char.toLower` (all inputs considered here are ASCII).
`load_swarm_history_for_context` is the identical code on the swarm file,
so the two channels are the same function over two disjoint stores.
-/

/-- A session record, as built by `save_reasoning_session` /
`save_swarm_session`. -/
structure SessionRec where
  timestamp : String
  user_prompt : String
  final_response : String
  user_feedback : String
  context_retained : Bool
deriving DecidableEq

/-- `append_session_record(file_path, record)`: `data.append(record)` on
the stored list. -/
def appendSessionRecord (store : List SessionRec) (record : SessionRec) :
    List SessionRec :=
  store ++ [record]

/-- `save_reasoning_session(user_prompt, final_response, user_feedback,
context_retained)`: build the record and append it. -/
def saveReasoningSession (store : List SessionRec)
    (timestamp user_prompt final_response user_feedback : String)
    (context_retained : Bool) : List SessionRec :=
  appendSessionRecord store
    ⟨timestamp, user_prompt, final_response, user_feedback, context_retained⟩

/-- A `\w` word character: letter, digit, or underscore. -/
def isWordChar (c : Char) : Bool :=
  c.isAlphanum || c == '_'

/-- Splitter behind `re.findall(r"\w+", s)`: maximal runs of word
characters, accumulated in reverse in `acc`. -/
def wordTokensAux : List Char → List Char → List String
  | [], acc => if acc.isEmpty then [] else [String.mk acc.reverse]
  | c :: cs, acc =>
    if isWordChar c then wordTokensAux cs (c :: acc)
    else if acc.isEmpty then wordTokensAux cs []
    else String.mk acc.reverse :: wordTokensAux cs []

/-- `re.findall(r"\w+", s)`. -/
def wordTokens (s : String) : List String :=
  wordTokensAux s.toList []

/-- Python's substring containment `needle in hay` on character lists. -/
def subHas (hay needle : List Char) : Bool :=
  (List.range (hay.length + 1)).any (fun i => needle.isPrefixOf (hay.drop i))

/-- Python's substring containment `needle in hay` on strings. -/
def strHas (hay needle : String) : Bool :=
  subHas hay.toList needle.toList

/-- Python's `str.lower()`, written as a character-by-character map so that
it evaluates inside the kernel (ASCII inputs). -/
def lowerStr (s : String) : String :=
  String.mk (s.toList.map Char.toLower)

/-- `(entry["user_prompt"] + " " + entry["final_response"]).lower()`. -/
def combinedText (e : SessionRec) : String :=
  lowerStr (e.user_prompt ++ " " ++ e.final_response)

/-- `any(kw.lower() in combined_text for kw in search_keywords)`. -/
def matchesRec (kws : List String) (e : SessionRec) : Bool :=
  kws.any (fun kw => strHas (combinedText e) (lowerStr kw))

/-- The per-record summary string
`f"Timestamp: {e}\nUser Prompt: {e}\nFinal Response: {e}"`. -/
def summaryOf (e : SessionRec) : String :=
  "Timestamp: " ++ e.timestamp ++ "\nUser Prompt: " ++ e.user_prompt ++
    "\nFinal Response: " ++ e.final_response

/-- The scan loop of `load_reasoning_history_for_context` over the already
reversed list: stop once `count` reaches `max_records`; when the keyword
list is nonempty, skip entries matching no keyword; otherwise summarize the
entry and count it. -/
def selectContexts (maxRecords : Nat) (kws : List String) :
    List SessionRec → Nat → List String
  | [], _ => []
  | e :: rest, count =>
    if maxRecords ≤ count then []
    else if !kws.isEmpty && !matchesRec kws e then
      selectContexts maxRecords kws rest count
    else
      summaryOf e :: selectContexts maxRecords kws rest (count + 1)

/-- `load_reasoning_history_for_context(max_records, search_keywords)`:
reverse the store (newest first) and scan. -/
def loadHistoryForContext (store : List SessionRec) (maxRecords : Nat)
    (kws : List String) : List String :=
  selectContexts maxRecords kws store.reverse 0

/-- `get_local_context_for_prompt`, up to the final string concatenation:
extract `\w+` tokens from the prompt and retrieve the matching summaries. -/
def retrieveForPrompt (store : List SessionRec) (user_prompt : String)
    (maxRecords : Nat) : List String :=
  loadHistoryForContext store maxRecords (wordTokens user_prompt)

/-- Modelled from the claim's words, for comparison with
`retrieveForPrompt`: select exactly those records, newest first, whose
concatenated prompt+response text contains any extracted token, capped at
`maxRecords`. -/
def claimRetrieveC8 (store : List SessionRec) (maxRecords : Nat)
    (user_prompt : String) : List String :=
  ((store.reverse.filter (fun e => matchesRec (wordTokens user_prompt) e)).map
    summaryOf).take maxRecords

/-! ## Theorems -/

/-- Eviction only ever removes a prefix of the list: the result of the
eviction loop is the original list with its `k` oldest entries dropped. -/
theorem evict_eq_drop (enc : String → Nat) (budget : Nat) :
    ∀ msgs : List Msg, ∃ k, evict enc budget msgs = msgs.drop k := by
  intro msgs
  induction msgs with
  | nil => exact ⟨0, rfl⟩
  | cons m rest ih =>
    cases rest with
    | nil => exact ⟨0, rfl⟩
    | cons m2 rest2 =>
      by_cases h : budget < totalTokens enc (m :: m2 :: rest2)
      · obtain ⟨k, hk⟩ := ih
        exact ⟨k + 1, by simp [evict, h, hk]⟩
      · exact ⟨0, by simp [evict, h]⟩

/-- Eviction never empties a nonempty log. -/
theorem evict_ne_nil (enc : String → Nat) (budget : Nat) :
    ∀ msgs : List Msg, msgs ≠ [] → evict enc budget msgs ≠ [] := by
  intro msgs
  induction msgs with
  | nil => intro h; exact absurd rfl h
  | cons m rest ih =>
    intro _
    cases rest with
    | nil => simp [evict]
    | cons m2 rest2 =>
      by_cases h : budget < totalTokens enc (m :: m2 :: rest2)
      · simpa [evict, h] using ih (by simp)
      · simp [evict, h]

/-- After the eviction loop, either the total cost is within budget, or a
single message remains and it alone exceeds the budget. -/
theorem evict_budget (enc : String → Nat) (budget : Nat) :
    ∀ msgs : List Msg, msgs ≠ [] →
      totalTokens enc (evict enc budget msgs) ≤ budget ∨
      ∃ m, evict enc budget msgs = [m] ∧ budget < enc m.content := by
  intro msgs
  induction msgs with
  | nil => intro h; exact absurd rfl h
  | cons m rest ih =>
    intro _
    cases rest with
    | nil =>
      by_cases h : enc m.content ≤ budget
      · left; simpa [evict, totalTokens] using h
      · right; exact ⟨m, by simp [evict], by omega⟩
    | cons m2 rest2 =>
      by_cases h : budget < totalTokens enc (m :: m2 :: rest2)
      · have := ih (by simp)
        simpa [evict, h] using this
      · left; simp only [evict, if_neg h]; omega

/-- C1: for every agent and every append to either conversation log
(`self.messages` under `MAX_TOTAL_TOKENS`, `self.chat_history` under
`MAX_CHAT_HISTORY_TOKENS`), immediately after the append the sum of token
costs of the stored messages is within the budget, or exactly one message
remains and its own cost alone exceeds the budget.  The starting log `msgs`
is arbitrary, so the invariant holds after every append of any sequence. -/
theorem conversation_log_budget_invariant
    (enc : String → Nat) (msgs : List Msg) (role content : String) :
    (totalTokens enc (addReasoningMessage enc msgs role content) ≤ MAX_TOTAL_TOKENS ∨
      ∃ m, addReasoningMessage enc msgs role content = [m] ∧
        MAX_TOTAL_TOKENS < enc m.content) ∧
    (totalTokens enc (addChatMessage enc msgs role content) ≤ MAX_CHAT_HISTORY_TOKENS ∨
      ∃ m, addChatMessage enc msgs role content = [m] ∧
        MAX_CHAT_HISTORY_TOKENS < enc m.content) := by
  constructor
  · exact evict_budget enc MAX_TOTAL_TOKENS (msgs ++ [⟨role, content⟩]) (by simp)
  · exact evict_budget enc MAX_CHAT_HISTORY_TOKENS (msgs ++ [⟨role, content⟩]) (by simp)

/-- C3: eviction is strict FIFO.  The log left by `_add_message` is always a
suffix of the appended log: some number `k` of the oldest messages were
removed from the front and nothing else changed, so the N-th oldest message
is evicted before the (N+1)-th and no re-ordering or priority eviction
occurs. -/
theorem eviction_is_fifo
    (enc : String → Nat) (budget : Nat) (msgs : List Msg) (role content : String) :
    ∃ k, addMessage enc budget msgs role content =
      (msgs ++ [Msg.mk role content]).drop k :=
  evict_eq_drop enc budget (msgs ++ [Msg.mk role content])

/-- C2: on persistent failure the completion call makes exactly
`RETRY_LIMIT = 3` attempts, sleeps `1 * RETRY_BACKOFF_FACTOR ^ 0` seconds
after the first failed attempt and `1 * RETRY_BACKOFF_FACTOR ^ 1` after the
second (no sleep after the last), and then returns — it does not raise —
the sentinel reply paired with the elapsed wall-clock time so far, leaving
the log untouched. -/
theorem retry_exhaustion_returns_sentinel
    (attempt : Nat → AttemptRes) (encAvailable : Bool) (enc : String → Nat)
    (budget elapsed : Nat) (msgs : List Msg)
    (h : ∀ k, k < RETRY_LIMIT → attempt k = AttemptRes.fail) :
    handleReasoningLogic attempt encAvailable enc budget elapsed msgs =
      Except.ok ⟨SENTINEL_REPLY, elapsed, msgs,
        [1 * RETRY_BACKOFF_FACTOR ^ 0, 1 * RETRY_BACKOFF_FACTOR ^ 1],
        RETRY_LIMIT⟩ := by
  have h0 := h 0 (by decide)
  have h1 := h 1 (by decide)
  have h2 := h 2 (by decide)
  simp [handleReasoningLogic, RETRY_LIMIT, reasoningLoopE, attemptBody,
    h0, h1, h2, backoffDelay, RETRY_BACKOFF_FACTOR]

/-- Witness for C2 at a concrete always-failing oracle. -/
theorem retry_exhaustion_returns_sentinel_witness :
    handleReasoningLogic (fun _ => AttemptRes.fail) true (fun s => s.length)
        4096 7 [] =
      Except.ok ⟨SENTINEL_REPLY, 7, [],
        [1 * RETRY_BACKOFF_FACTOR ^ 0, 1 * RETRY_BACKOFF_FACTOR ^ 1],
        RETRY_LIMIT⟩ :=
  retry_exhaustion_returns_sentinel (fun _ => AttemptRes.fail) true
    (fun s => s.length) 4096 7 [] (fun _ _ => rfl)

/-- C4 counterexample: the claim says an unavailable token counter
propagates immediately and aborts the run rather than being degraded to the
sentinel reply.  At the concrete input where the encoding is unavailable
(`encAvailable = false`) and every remote call succeeds, the completion
call returns normally (`Except.ok`, not `.error`) with exactly the sentinel
reply: the `raise e` of `_add_message` is caught by the retry loop's
`except Exception` clause — both call sites of `_add_message` sit inside
that `try` block — so the failure is retried three times and then degraded
to the sentinel, and the run is not aborted. -/
theorem encoding_failure_not_fatal_counterexample :
    handleReasoningLogic (fun _ => AttemptRes.ok "hello" 5) false
        (fun s => s.length) MAX_TOTAL_TOKENS 9 [] =
      Except.ok ⟨SENTINEL_REPLY, 9, [], [1, 2], 3⟩ := by
  rfl

/-- C4 amended: when the token-counting mechanism is unavailable,
`_add_message` itself fails loudly (it re-raises instead of silently
skipping enforcement), but every call site is inside the completion call's
`try` block, so — whatever the remote call does — each attempt fails, and
after `RETRY_LIMIT = 3` attempts the call returns the sentinel reply with
the log unchanged instead of aborting the run. -/
theorem encoding_failure_degrades_to_sentinel
    (attempt : Nat → AttemptRes) (enc : String → Nat)
    (budget elapsed : Nat) (msgs : List Msg) (role content : String) :
    addMessageE false enc budget msgs role content =
      Except.error "Error getting encoding" ∧
    handleReasoningLogic attempt false enc budget elapsed msgs =
      Except.ok ⟨SENTINEL_REPLY, elapsed, msgs, [1, 2], 3⟩ := by
  constructor
  · rfl
  · cases h0 : attempt 0 <;> cases h1 : attempt 1 <;> cases h2 : attempt 2 <;>
      simp [handleReasoningLogic, RETRY_LIMIT, reasoningLoopE, attemptBody,
        addMessageE, h0, h1, h2, backoffDelay, RETRY_BACKOFF_FACTOR]

/-- If one iteration's `try` block succeeds, the new log is exactly the old
log with the assistant reply appended through `_add_message`. -/
theorem attemptBody_ok_log (encAvailable : Bool) (enc : String → Nat)
    (budget : Nat) (msgs : List Msg) (att : AttemptRes)
    (reply : String) (dur : Nat) (msgs2 : List Msg)
    (h : attemptBody encAvailable enc budget msgs att =
      Except.ok (reply, dur, msgs2)) :
    msgs2 = addMessage enc budget msgs "assistant" reply := by
  cases att with
  | fail => simp [attemptBody] at h
  | ok rep d =>
    by_cases he : encAvailable
    · simp [attemptBody, addMessageE, he] at h
      obtain ⟨h1, _, h3⟩ := h
      rw [← h3, h1]
    · simp [attemptBody, addMessageE, he] at h

/-- The retry loop either leaves the log unchanged (exception or
exhaustion) or appends exactly one assistant reply, and it never escapes
with an error. -/
theorem reasoningLoopE_log (attempt : Nat → AttemptRes) (encAvailable : Bool)
    (enc : String → Nat) (budget elapsed : Nat) :
    ∀ fuel retries (msgs : List Msg) (r : ReasonResult),
      reasoningLoopE attempt encAvailable enc budget elapsed msgs retries fuel =
        Except.ok r →
      r.log = msgs ∨
        ∃ reply, r.log = addMessage enc budget msgs "assistant" reply := by
  intro fuel
  induction fuel with
  | zero =>
    intro retries msgs r hr
    simp [reasoningLoopE] at hr
    left
    rw [← hr]
  | succ n ih =>
    intro retries msgs r hr
    rw [reasoningLoopE] at hr
    cases hb : attemptBody encAvailable enc budget msgs (attempt retries) with
    | ok t =>
      obtain ⟨reply, dur, msgs2⟩ := t
      rw [hb] at hr
      simp at hr
      right
      exact ⟨reply, by rw [← hr]; exact attemptBody_ok_log _ _ _ _ _ _ _ _ hb⟩
    | error e =>
      rw [hb] at hr
      simp only at hr
      by_cases hl : RETRY_LIMIT ≤ retries + 1
      · rw [if_pos hl] at hr
        simp at hr
        left
        rw [← hr]
      · rw [if_neg hl] at hr
        cases hrec : reasoningLoopE attempt encAvailable enc budget elapsed msgs
            (retries + 1) n with
        | ok r2 =>
          rw [hrec] at hr
          simp at hr
          have := ih (retries + 1) msgs r2 hrec
          rw [← hr]
          simpa using this
        | error e2 =>
          rw [hrec] at hr
          simp at hr

/-- C10: every message ever stored in an agent's log has role
`"assistant"`.  If all messages in the log have role `"assistant"` before a
completion call, then after it (a) all messages still do, and (b) the log
is either unchanged (a failed, sentinel call appends nothing) or extended
by exactly one assistant reply — in particular the user prompt, which is
sent to the service inside `requestMessages`, is never appended.  Starting
from the empty log this is an invariant of every run, for both the
reasoning log and the chat history (the chat loop is the identical code on
`self.chat_history`). -/
theorem log_roles_all_assistant
    (attempt : Nat → AttemptRes) (encAvailable : Bool) (enc : String → Nat)
    (budget elapsed : Nat) (msgs : List Msg) (r : ReasonResult)
    (hroles : ∀ m ∈ msgs, m.role = "assistant")
    (hr : handleReasoningLogic attempt encAvailable enc budget elapsed msgs =
      Except.ok r) :
    (∀ m ∈ r.log, m.role = "assistant") ∧
    (r.log = msgs ∨
      ∃ reply, r.log = addMessage enc budget msgs "assistant" reply) := by
  have hcases := reasoningLoopE_log attempt encAvailable enc budget elapsed
    RETRY_LIMIT 0 msgs r hr
  refine ⟨?_, hcases⟩
  cases hcases with
  | inl hsame => rw [hsame]; exact hroles
  | inr hext =>
    obtain ⟨reply, hrep⟩ := hext
    rw [hrep]
    intro m hm
    obtain ⟨k, hk⟩ := evict_eq_drop enc budget (msgs ++ [Msg.mk "assistant" reply])
    rw [addMessage, hk] at hm
    have hm2 : m ∈ msgs ++ [Msg.mk "assistant" reply] := List.drop_subset k _ hm
    rcases List.mem_append.mp hm2 with h | h
    · exact hroles m h
    · simp at h
      rw [h]

/-- Witness for C10: a successful call on the empty log stores exactly one
assistant message. -/
theorem log_roles_all_assistant_witness :
    (∀ m ∈ (⟨"hi", 2, [Msg.mk "assistant" "hi"], [], 1⟩ : ReasonResult).log,
      m.role = "assistant") ∧
    ((⟨"hi", 2, [Msg.mk "assistant" "hi"], [], 1⟩ : ReasonResult).log = [] ∨
      ∃ reply, (⟨"hi", 2, [Msg.mk "assistant" "hi"], [], 1⟩ : ReasonResult).log =
        addMessage (fun s => s.length) 4096 [] "assistant" reply) :=
  log_roles_all_assistant (fun _ => AttemptRes.ok "hi" 2) true
    (fun s => s.length) 4096 0 [] ⟨"hi", 2, [Msg.mk "assistant" "hi"], [], 1⟩
    (by intro m hm; cases hm) rfl

theorem refineLoop_shift (step : String → String × Nat) (data : String)
    (more_time : Bool) :
    ∀ n i total,
      refineLoop step n
          (furtherRefinePrompt (refineRound step data more_time i).1)
          (refineRound step data more_time i).1 total =
        ((refineRound step data more_time (n + i)).1,
          total + refineDurFrom step data more_time i n) := by
  intro n
  induction n with
  | zero => intro i total; simp [refineLoop, refineDurFrom]
  | succ n ih =>
    intro i total
    have hstep : step (furtherRefinePrompt (refineRound step data more_time i).1) =
        refineRound step data more_time (i + 1) := rfl
    rw [refineLoop, hstep, ih (i + 1)]
    have harith : n + (i + 1) = n + 1 + i := by omega
    rw [harith, refineDurFrom]
    simp [Nat.add_assoc]

theorem refineDurFrom_succ (step : String → String × Nat) (data : String)
    (more_time : Bool) :
    ∀ n i, refineDurFrom step data more_time i (n + 1) =
      refineDurFrom step data more_time i n +
        (refineRound step data more_time (i + 1 + n)).2 := by
  intro n
  induction n with
  | zero => intro i; simp [refineDurFrom]
  | succ n ih =>
    intro i
    rw [refineDurFrom, ih (i + 1), refineDurFrom]
    have : i + 1 + 1 + n = i + 1 + (n + 1) := by omega
    rw [this]
    simp [Nat.add_assoc]

theorem refineDurSum_eq (step : String → String × Nat) (data : String)
    (more_time : Bool) :
    ∀ n, refineDurSum step data more_time (n + 1) =
      (refineRound step data more_time 0).2 +
        refineDurFrom step data more_time 0 n := by
  intro n
  induction n with
  | zero => simp [refineDurSum, refineDurFrom]
  | succ n ih =>
    rw [refineDurSum, ih, refineDurFrom_succ]
    have : 0 + 1 + n = n + 1 := by omega
    rw [this, Nat.add_assoc]

/-- C5: `refine(data, more_time, iterations = k)` with `k ≥ 1` performs
exactly `k` sequential dependent rounds — round `i+1`'s prompt is built
from round `i`'s reply text, a strict left fold on one agent — where the
additional-time directive appears only in round 0's prompt
(`refineRound` uses `initialRefinePrompt` only at index 0 and
`furtherRefinePrompt`, which ignores `more_time`, afterwards), and it
returns the final round's text paired with the sum of the `k` individual
durations. -/
theorem refine_is_dependent_fold (step : String → String × Nat)
    (data : String) (more_time : Bool) (k : Nat) (h : 1 ≤ k) :
    refineAction step data more_time k =
      ((refineRound step data more_time (k - 1)).1,
        refineDurSum step data more_time k) := by
  obtain ⟨m, rfl⟩ : ∃ m, k = m + 1 := ⟨k - 1, by omega⟩
  rw [refineAction, refineLoop]
  have hstep : step (initialRefinePrompt data more_time) =
      refineRound step data more_time 0 := rfl
  rw [hstep, refineLoop_shift, refineDurSum_eq]
  simp

/-- Witness for C5 at a concrete step oracle and `k = 2`. -/
theorem refine_is_dependent_fold_witness :
    refineAction (fun p => (p ++ "+", p.length)) "seed" true 2 =
      ((refineRound (fun p => (p ++ "+", p.length)) "seed" true 1).1,
        refineDurSum (fun p => (p ++ "+", p.length)) "seed" true 2) :=
  refine_is_dependent_fold (fun p => (p ++ "+", p.length)) "seed" true 2
    (by decide)

/-- C6: the critique stage is a directed ring.  It produces exactly one
critique per agent (`length = agents.length`), and the `i`-th entry is
agent `i` critiquing the verified output of agent `(i + 1) mod N`. -/
theorem critique_topology_is_ring (agents : List String)
    (verified : String → String) (crit : String → String → String)
    (i : Nat) (hi : i < agents.length) :
    (critiqueStage agents verified crit).length = agents.length ∧
    (critiqueStage agents verified crit)[i]? =
      some (agents.getD i "",
        crit (agents.getD i "")
          (verified (agents.getD ((i + 1) % agents.length) ""))) := by
  constructor
  · simp [critiqueStage]
  · rw [critiqueStage, List.getElem?_map, List.getElem?_range hi]
    rfl

/-- Witness for C6: three agents `[A, B, C]`; agent 2 (`C`) critiques the
verified output of agent `(2 + 1) mod 3 = 0` (`A`). -/
theorem critique_topology_is_ring_witness :
    (critiqueStage ["A", "B", "C"] (fun s => "v:" ++ s)
        (fun a t => a ++ " on " ++ t)).length = (["A", "B", "C"] : List String).length ∧
    (critiqueStage ["A", "B", "C"] (fun s => "v:" ++ s)
        (fun a t => a ++ " on " ++ t))[2]? =
      some ((["A", "B", "C"] : List String).getD 2 "",
        (fun (a t : String) => a ++ " on " ++ t)
          ((["A", "B", "C"] : List String).getD 2 "")
          ((fun s => "v:" ++ s)
            ((["A", "B", "C"] : List String).getD ((2 + 1) % (["A", "B", "C"] : List String).length) ""))) :=
  critique_topology_is_ring ["A", "B", "C"] (fun s => "v:" ++ s)
    (fun a t => a ++ " on " ++ t) 2 (by decide)

/-- Once `refine_count` has reached `MAX_REFINEMENT_ATTEMPTS`, the loop
condition is false and the loop exits with the current blended text,
reading no further input. -/
theorem feedbackLoop_maxed (stepRound : Bool → String → String) (mt : Bool)
    (blended : String) (inputs : List Fb) :
    feedbackLoop stepRound 3 mt blended inputs =
      (FbOutcome.maxAttempts, blended) := by
  cases inputs with
  | nil => simp [feedbackLoop, MAX_REFINEMENT_ATTEMPTS]
  | cons a l =>
    rw [feedbackLoop.eq_def]
    simp [MAX_REFINEMENT_ATTEMPTS]

/-- C7: even on an input script of nothing but `'no'` answers, the feedback
loop terminates after consuming at most three `'no'` responses to the
feedback question (plus the two more-time answers, which on this script are
also the line `'no'`, so `more_time` stays false): it re-refines and
re-blends exactly three times, reports that the maximum refinement attempts
were reached, and preserves the last blended text — any further `'no'`
lines are never read. -/
theorem feedback_loop_bounded (stepRound : Bool → String → String)
    (blended : String) (m : Nat) (h : 5 ≤ m) :
    feedbackLoop stepRound 0 false blended (List.replicate m Fb.no) =
      (FbOutcome.maxAttempts,
        stepRound false (stepRound false (stepRound false blended))) := by
  obtain ⟨j, rfl⟩ : ∃ j, m = j + 5 := ⟨m - 5, by omega⟩
  have h5 : j + 5 = (j + 4) + 1 := rfl
  have h4 : j + 4 = (j + 3) + 1 := rfl
  have h3 : j + 3 = (j + 2) + 1 := rfl
  have h2 : j + 2 = (j + 1) + 1 := rfl
  rw [h5, List.replicate_succ, h4, List.replicate_succ, h3, List.replicate_succ,
    h2, List.replicate_succ, List.replicate_succ]
  simp [feedbackLoop, MAX_REFINEMENT_ATTEMPTS, feedbackLoop_maxed]

/-- Witness for C7: a script of exactly five `'no'` lines. -/
theorem feedback_loop_bounded_witness :
    feedbackLoop (fun _ s => s ++ "*") 0 false "seed" (List.replicate 5 Fb.no) =
      (FbOutcome.maxAttempts,
        (fun (_ : Bool) (s : String) => s ++ "*") false
          ((fun (_ : Bool) (s : String) => s ++ "*") false
            ((fun (_ : Bool) (s : String) => s ++ "*") false "seed"))) :=
  feedback_loop_bounded (fun _ s => s ++ "*") "seed" 5 (by decide)

theorem selectContexts_eq (maxRecords : Nat) (kws : List String) :
    ∀ (entries : List SessionRec) (count : Nat),
      selectContexts maxRecords kws entries count =
        ((if kws.isEmpty then entries
          else entries.filter (fun e => matchesRec kws e)).map summaryOf).take
          (maxRecords - count) := by
  intro entries
  induction entries with
  | nil => intro count; simp [selectContexts]
  | cons e rest ih =>
    intro count
    by_cases hc : maxRecords ≤ count
    · have hz : maxRecords - count = 0 := by omega
      by_cases hk : kws.isEmpty <;>
        simp [selectContexts, hc, hz, hk]
    · have hs : maxRecords - count = (maxRecords - (count + 1)) + 1 := by omega
      by_cases hk : kws.isEmpty
      · simp [selectContexts, hc, hk, hs, ih]
      · by_cases hm : matchesRec kws e
        · simp [selectContexts, hc, hk, hm, hs, ih]
        · simp [selectContexts, hc, hk, hm, ih]

/-- C8 counterexample: the claim says retrieval selects exactly those
records whose concatenated prompt+response text contains some extracted
token.  For the query `"???"` no `\w+` token is extracted, so the claimed
behavior (`claimRetrieveC8`) selects nothing; the code, however, skips the
keyword filter entirely when the keyword list is empty
(`if search_keywords:`) and returns the newest `max_records` records
unconditionally — here a record containing none of the (zero) tokens. -/
theorem retrieval_empty_tokens_counterexample :
    wordTokens "???" = [] ∧
    retrieveForPrompt [⟨"2024-01-01 00:00:00", "hello", "world", "yes", true⟩]
        "???" 5 =
      [summaryOf ⟨"2024-01-01 00:00:00", "hello", "world", "yes", true⟩] ∧
    claimRetrieveC8 [⟨"2024-01-01 00:00:00", "hello", "world", "yes", true⟩] 5
        "???" = [] :=
  ⟨rfl, rfl, rfl⟩

/-- C8 amended: context retrieval extracts word tokens — maximal runs of
letters, digits or underscore (`\w+`), matched case-insensitively as
substrings — from the query prompt.  When at least one token was extracted
it scans the stored records newest to oldest and selects exactly those
whose concatenated prompt+response text contains some token (logical OR,
unranked, binary match), stopping after `maxRecords` matches; when no token
was extracted the keyword filter is skipped and the newest `maxRecords`
records are all returned.  Each selected record is returned as the
formatted summary of its timestamp, prompt, and final response, newest
first. -/
theorem retrieval_is_filtered_take (store : List SessionRec)
    (user_prompt : String) (maxRecords : Nat) :
    retrieveForPrompt store user_prompt maxRecords =
      ((if (wordTokens user_prompt).isEmpty then store.reverse
        else store.reverse.filter
          (fun e => matchesRec (wordTokens user_prompt) e)).map summaryOf).take
        maxRecords := by
  rw [retrieveForPrompt, loadHistoryForContext, selectContexts_eq]
  simp

/-- A list is a prefix (by `==`) of itself followed by anything. -/
theorem isPrefixOf_self_append (l t : List Char) :
    l.isPrefixOf (l ++ t) = true := by
  induction l with
  | nil => cases t <;> rfl
  | cons a as ih => simp [List.isPrefixOf, ih]

/-- Python's `in`: a needle occurring between `p` and `s` is found. -/
theorem subHas_parts (p n s : List Char) : subHas (p ++ n ++ s) n = true := by
  rw [subHas, List.any_eq_true]
  refine ⟨p.length, List.mem_range.mpr (by simp; omega), ?_⟩
  rw [List.append_assoc, List.drop_left]
  exact isPrefixOf_self_append n s

/-- Substring containment from an explicit decomposition of the haystack. -/
theorem strHas_of_decomp (hay n : String) (p s : List Char)
    (h : hay.toList = p ++ n.toList ++ s) : strHas hay n = true := by
  rw [strHas, h]
  exact subHas_parts p n.toList s

/-- `(s ++ t).toList = s.toList ++ t.toList` (string append is append of
the character data). -/
theorem string_toList_append (s t : String) :
    (s ++ t).toList = s.toList ++ t.toList :=
  rfl

/-- C9: round-trip.  After appending a `SessionRec` to the history store,
any retrieval whose keyword set matches that record (in particular one
whose keyword occurs only in that record) returns, first — the appended
record is the newest — a summary that contains the record's exact
timestamp, prompt, and final-response text as substrings. -/
theorem history_roundtrip (store : List SessionRec) (r : SessionRec)
    (kws : List String) (maxRecords : Nat)
    (h1 : 0 < maxRecords) (h2 : matchesRec kws r = true) :
    ∃ rest,
      loadHistoryForContext (appendSessionRecord store r) maxRecords kws =
        summaryOf r :: rest ∧
      strHas (summaryOf r) r.timestamp = true ∧
      strHas (summaryOf r) r.user_prompt = true ∧
      strHas (summaryOf r) r.final_response = true := by
  have hk : kws.isEmpty = false := by
    cases kws with
    | nil => simp [matchesRec] at h2
    | cons a l => rfl
  have hrev : (appendSessionRecord store r).reverse = r :: store.reverse := by
    simp [appendSessionRecord]
  refine ⟨selectContexts maxRecords kws store.reverse 1, ?_, ?_, ?_, ?_⟩
  · rw [loadHistoryForContext, hrev, selectContexts]
    have hc : ¬ maxRecords ≤ 0 := by omega
    simp [hc, hk, h2]
  · exact strHas_of_decomp _ _ ("Timestamp: ").toList
      (("\nUser Prompt: " ++ r.user_prompt ++ "\nFinal Response: " ++
        r.final_response).toList)
      (by simp [summaryOf, string_toList_append, List.append_assoc])
  · exact strHas_of_decomp _ _
      (("Timestamp: " ++ r.timestamp ++ "\nUser Prompt: ").toList)
      (("\nFinal Response: " ++ r.final_response).toList)
      (by simp [summaryOf, string_toList_append, List.append_assoc])
  · exact strHas_of_decomp _ _
      (("Timestamp: " ++ r.timestamp ++ "\nUser Prompt: " ++ r.user_prompt ++
        "\nFinal Response: ").toList) []
      (by simp [summaryOf, string_toList_append, List.append_assoc])

/-- Witness for C9 at a concrete record and keyword. -/
theorem history_roundtrip_witness :
    (0 : Nat) < 1 ∧
    matchesRec ["quantum"] ⟨"t1", "quantum physics", "fine", "yes", true⟩ = true ∧
    ∃ rest,
      loadHistoryForContext
          (appendSessionRecord [] ⟨"t1", "quantum physics", "fine", "yes", true⟩)
          1 ["quantum"] =
        summaryOf ⟨"t1", "quantum physics", "fine", "yes", true⟩ :: rest ∧
      strHas (summaryOf ⟨"t1", "quantum physics", "fine", "yes", true⟩) "t1" = true ∧
      strHas (summaryOf ⟨"t1", "quantum physics", "fine", "yes", true⟩)
        "quantum physics" = true ∧
      strHas (summaryOf ⟨"t1", "quantum physics", "fine", "yes", true⟩)
        "fine" = true :=
  ⟨Nat.one_pos, by decide,
    history_roundtrip [] ⟨"t1", "quantum physics", "fine", "yes", true⟩
      ["quantum"] 1 Nat.one_pos (by decide)⟩

end MultiAgent

